import Mathlib

/-!
Verification of the `@joaootavios/redis-map` library (`src/index.js`).

The library keeps a local in-memory mirror (`this.data`, a plain JS object
mapping string keys to JS values) of a named collection, synchronized across
processes through Redis pub/sub broadcast and keyspace-expiration events.

We embed the replica state as an association list over `JStr := List Char`
(JS strings are character sequences; JS objects have unique keys, with
in-place update on assignment and physical removal on `delete`).
The broadcast/apply logic of `RedisMap.#subscribe`, the mutators `set`,
`delete`, `clear`, the reader `get`, the resynchronization `sync`, the
expiration-marker handler, and the constructor's connection check are each
embedded as pure functions; Redis side effects (pipeline writes, publishes,
marker writes) are reified as explicit effect records.
-/

/-- JS strings, embedded as character lists. -/
abbrev JStr := List Char

/-- A JS object used as a map: an association list with unique keys. -/
abbrev ObjMap (V : Type) := List (JStr × V)

/-- Property lookup `d[k]` on a JS object: `some v` when the property is
present, `none` when absent (JS `undefined`). -/
def objLookup (k : JStr) : ObjMap V → Option V
  | [] => none
  | (k', v) :: rest => if k' = k then some v else objLookup k rest

/-- Property assignment `d[k] = v` on a JS object: updates the existing
property in place, or appends a new property at the end. -/
def objSet (k : JStr) (v : V) : ObjMap V → ObjMap V
  | [] => [(k, v)]
  | (k', v') :: rest => if k' = k then (k, v) :: rest else (k', v') :: objSet k v rest

/-- Property removal `delete d[k]` on a JS object: removes the property if
present, does nothing when absent. -/
def objDelete (k : JStr) : ObjMap V → ObjMap V
  | [] => []
  | (k', v) :: rest => if k' = k then objDelete k rest else (k', v) :: objDelete k rest

/-- `Object.entries(d)`, as used by `RedisMap.entries` (src/index.js:141-143). -/
def objEntries (d : ObjMap V) : List (JStr × V) := d

/-- A well-formed Change Message, as serialized by `set`/`delete`/`clear` in
src/index.js: action code 1 carries key and value, action code 2 carries the
key, action code 3 carries nothing. -/
inductive ChangeMsg (V : Type) where
  | set (key : JStr) (value : V)
  | del (key : JStr)
  | clear
deriving DecidableEq

/-- The key a Change Message acts on (`none` for `clear`). -/
def msgKey : ChangeMsg V → Option JStr
  | .set k _ => some k
  | .del k => some k
  | .clear => none

/-- The switch in the `subscribe` callback of `RedisMap.#subscribe`
(src/index.js:227-243): action 1 does `this.data[key] = value`, action 2 does
`delete this.data[key]`, action 3 does `this.data = {}`. -/
def applyMsg (m : ChangeMsg V) (d : ObjMap V) : ObjMap V :=
  match m with
  | .set k v => objSet k v d
  | .del k => objDelete k d
  | .clear => []

/-- Delivery of a finite sequence of Change Messages to a replica, in list
order (each delivered message is applied by the subscribe callback). -/
def applyList : List (ChangeMsg V) → ObjMap V → ObjMap V
  | [], d => d
  | m :: rest, d => applyList rest (applyMsg m d)

/-- No two set/delete messages of the list act on the same key (the proviso
of the convergence claim); `clear` messages act on no key. -/
def distinctKeys (l : List (ChangeMsg V)) : Prop :=
  l.Pairwise (fun m1 m2 => msgKey m1 = none ∨ msgKey m1 ≠ msgKey m2)

instance : DecidablePred (distinctKeys (V := V)) := by
  unfold distinctKeys
  infer_instance

/-! Basic lookup lemmas about the JS object operations. -/

theorem objLookup_objSet_self (k : JStr) (v : V) (d : ObjMap V) :
    objLookup k (objSet k v d) = some v := by
  induction d with
  | nil => simp [objSet, objLookup]
  | cons p rest ih =>
    obtain ⟨k', v'⟩ := p
    by_cases h : k' = k
    · simp [objSet, h, objLookup]
    · simp [objSet, h, objLookup, ih]

theorem objLookup_objSet_other (k k' : JStr) (v : V) (d : ObjMap V) (h : k' ≠ k) :
    objLookup k' (objSet k v d) = objLookup k' d := by
  have h' : k ≠ k' := fun hh => h hh.symm
  induction d with
  | nil => simp [objSet, objLookup, h']
  | cons p rest ih =>
    obtain ⟨k₀, v₀⟩ := p
    by_cases h0 : k₀ = k
    · subst h0
      simp [objSet, objLookup, h']
    · simp only [objSet, if_neg h0]
      by_cases h1 : k₀ = k'
      · simp [objLookup, h1]
      · simp [objLookup, h1, ih]

theorem objLookup_objDelete_self (k : JStr) (d : ObjMap V) :
    objLookup k (objDelete k d) = none := by
  induction d with
  | nil => simp [objDelete, objLookup]
  | cons p rest ih =>
    obtain ⟨k', v'⟩ := p
    by_cases h : k' = k
    · simp [objDelete, h, ih]
    · simp [objDelete, h, objLookup, ih]

theorem objLookup_objDelete_other (k k' : JStr) (d : ObjMap V) (h : k' ≠ k) :
    objLookup k' (objDelete k d) = objLookup k' d := by
  have h' : k ≠ k' := fun hh => h hh.symm
  induction d with
  | nil => simp [objDelete]
  | cons p rest ih =>
    obtain ⟨k₀, v₀⟩ := p
    by_cases h0 : k₀ = k
    · subst h0
      simp [objDelete, objLookup, h', ih]
    · simp only [objDelete, if_neg h0]
      by_cases h1 : k₀ = k'
      · simp [objLookup, h1]
      · simp [objLookup, h1, ih]

theorem objDelete_absent (k : JStr) (d : ObjMap V) (h : objLookup k d = none) :
    objDelete k d = d := by
  induction d with
  | nil => simp [objDelete]
  | cons p rest ih =>
    obtain ⟨k', v'⟩ := p
    by_cases h0 : k' = k
    · simp [objLookup, h0] at h
    · simp only [objLookup, if_neg h0] at h
      simp [objDelete, h0, ih h]

theorem objSet_idem (k : JStr) (v : V) (d : ObjMap V) :
    objSet k v (objSet k v d) = objSet k v d := by
  induction d with
  | nil => simp [objSet]
  | cons p rest ih =>
    obtain ⟨k', v'⟩ := p
    by_cases h : k' = k
    · simp [objSet, h]
    · simp [objSet, h, ih]

theorem objDelete_idem (k : JStr) (d : ObjMap V) :
    objDelete k (objDelete k d) = objDelete k d := by
  induction d with
  | nil => simp [objDelete]
  | cons p rest ih =>
    obtain ⟨k', v'⟩ := p
    by_cases h : k' = k
    · simp [objDelete, h, ih]
    · simp [objDelete, h, ih]

/-! String machinery used by the expiration handler. -/

/-- JS `s.startsWith(p)` on character lists. -/
def jsStartsWith : JStr → JStr → Bool
  | _, [] => true
  | [], _ :: _ => false
  | c :: cs, p :: ps => c = p && jsStartsWith cs ps

/-- JS `s.split("=")` on character lists: splits at every occurrence of the
delimiter; `""` splits to `[""]`. -/
def splitEq : JStr → List JStr
  | [] => [[]]
  | c :: cs =>
    if c = '=' then [] :: splitEq cs
    else
      match splitEq cs with
      | [] => [[c]]
      | s :: ss => (c :: s) :: ss

/-- The marker-channel filter string of `RedisMap.#subscribe`
(src/index.js:222), the template literal `rmap-<name>-ex`. -/
def markerHead (name : JStr) : JStr :=
  "rmap-".toList ++ name ++ "-ex".toList

/-- The Expiration Marker store key written by `RedisMap.set`
(src/index.js:160), the template literal `rmap-<name>-ex=<key>`. -/
def markerKey (name : JStr) (key : JStr) : JStr :=
  markerHead name ++ '=' :: key

/-- The `pSubscribe` callback of `RedisMap.#subscribe` (src/index.js:221-225)
run on one expired-key event `evKey`: if `evKey` starts with the marker
filter, it deletes `evKey.split("=")[1]` from the local replica (when the
split has no element 1, JS `delete data[undefined]` targets the property
named `"undefined"`). The second component lists the Change Messages the
callback publishes; the source publishes none. -/
def expiredHandler (name : JStr) (evKey : JStr) (d : ObjMap V) :
    ObjMap V × List (ChangeMsg V) :=
  if jsStartsWith evKey (markerHead name) then
    (objDelete (((splitEq evKey).get? 1).getD "undefined".toList) d, [])
  else (d, [])

/-! JS values, for the parts of the code whose behavior depends on JS
truthiness (`RedisMap.get` returns `this.data[key] || null`). -/

/-- An embedded JS value: null, booleans, integers (the numeric values the
library's documented usage stores), strings, and objects. -/
inductive JSVal where
  | vNull
  | vBool (b : Bool)
  | vNum (n : Int)
  | vStr (s : JStr)
  | vObj (fields : List (JStr × JSVal))

/-- JS truthiness of an embedded value. -/
def truthy : JSVal → Bool
  | .vNull => false
  | .vBool b => b
  | .vNum n => n ≠ 0
  | .vStr s => s ≠ []
  | .vObj _ => true

namespace RedisMap

/-- `RedisMap.get` (src/index.js:124-126): `return this.data[key] || null`.
A purely local lookup; an absent property (JS `undefined`) and a falsy stored
value both yield `null`. -/
def get (d : ObjMap JSVal) (k : JStr) : JSVal :=
  match objLookup k d with
  | some v => if truthy v then v else .vNull
  | none => .vNull

/-- The Redis effects of one `RedisMap.set` call: the local replica after the
optimistic mutation, the snapshot blob written under the collection name, the
Change Messages published, and the Expiration Marker write (key and TTL in
seconds), if any. -/
structure SetEffects (V : Type) where
  data : ObjMap V
  snapshot : ObjMap V
  published : List (ChangeMsg V)
  marker : Option (JStr × Nat)
deriving DecidableEq

/-- `RedisMap.set` (src/index.js:151-164): mutates the local replica first,
then pipelines `SET name JSON.stringify(this.data)`, a publish of
`{a:1, key, value}`, and — only when `expire` is truthy (a nonzero number) —
`SET rmap-<name>-ex=<key> 0 EX expire`. -/
def set (name : JStr) (d : ObjMap V) (key : JStr) (value : V)
    (expire : Option Nat) : SetEffects V :=
  let d' := objSet key value d
  { data := d'
    snapshot := d'
    published := [ChangeMsg.set key value]
    marker :=
      match expire with
      | some n => if n ≠ 0 then some (markerKey name key, n) else none
      | none => none }

/-- The Redis effects of one `RedisMap.delete` call. -/
structure DeleteEffects (V : Type) where
  data : ObjMap V
  snapshot : ObjMap V
  published : List (ChangeMsg V)
deriving DecidableEq

/-- `RedisMap.delete` (src/index.js:170-179): removes the key from the local
replica first, then pipelines the snapshot write and a publish of
`{a:2, key}`. -/
def delete (name : JStr) (d : ObjMap V) (key : JStr) : DeleteEffects V :=
  let d' := objDelete key d
  { data := d', snapshot := d', published := [ChangeMsg.del key] }

/-- The Redis effects of one `RedisMap.clear` call: the local replica (left
untouched by the call itself), the store keys removed with `DEL`, the
snapshot write (none: `clear` never writes an empty object), and the
published Change Messages. -/
structure ClearEffects (V : Type) where
  data : ObjMap V
  storeDel : List JStr
  snapshotWrite : Option (ObjMap V)
  published : List (ChangeMsg V)
deriving DecidableEq

/-- `RedisMap.clear` (src/index.js:184-191): pipelines `DEL name` and a
publish of `{a:3}`; it does not touch `this.data` locally — the local mirror
empties when the echoed broadcast is applied by the subscribe callback. -/
def clear (name : JStr) (d : ObjMap V) : ClearEffects V :=
  { data := d
    storeDel := [name]
    snapshotWrite := none
    published := [ChangeMsg.clear] }

/-- A `set` call together with the outcome of `await pipeline.exec()`
(src/index.js:163): the local mutation at line 152 precedes the awaited
exec, and there is no catch, so a failed exec rejects to the caller while
the replica keeps the mutation. -/
def setCall (name : JStr) (d : ObjMap V) (key : JStr) (value : V)
    (expire : Option Nat) (execOk : Bool) : ObjMap V × Except Unit Unit :=
  ((set name d key value expire).data,
    if execOk then Except.ok () else Except.error ())

/-- A `delete` call together with the outcome of `await pipeline.exec()`
(src/index.js:178): the local removal at line 171 precedes the awaited
exec, and there is no catch. -/
def deleteCall (name : JStr) (d : ObjMap V) (key : JStr) (execOk : Bool) :
    ObjMap V × Except Unit Unit :=
  ((delete name d key).data,
    if execOk then Except.ok () else Except.error ())

/-- `RedisMap.sync` (src/index.js:196-203): reads the snapshot blob; the
`.catch(() => null)` turns a failed read into `null`, and a missing blob is
`null`, so `if (data)` only replaces `this.data` when the store held a
snapshot. The read result is the argument: `Except.error` for a failed read,
`Except.ok none` for no blob, `Except.ok (some s)` for a blob deserializing
to `s`. The function is total: `sync` never raises. -/
def sync (readResult : Except Unit (Option (ObjMap V))) (d : ObjMap V) :
    ObjMap V :=
  match readResult with
  | .error _ => d
  | .ok none => d
  | .ok (some s) => s

/-- The connection check of the `RedisMap` constructor (src/index.js:111-113):
`if (!(this.#redis.isOpen || this.#pubsub.isOpen)) throw ...` — returns
`true` exactly when the constructor throws. -/
def constructorThrows (redisOpen pubsubOpen : Bool) : Bool :=
  !(redisOpen || pubsubOpen)

end RedisMap

/-! Convergence machinery: under the no-clear and distinct-keys provisos, the
final lookup at a key is decided by the unique message on that key. -/

/-- The first (hence, under `distinctKeys`, the only) message of the list
acting on key `k`. -/
def findOnKey (k : JStr) (l : List (ChangeMsg V)) : Option (ChangeMsg V) :=
  l.find? (fun m => decide (msgKey m = some k))

theorem applyMsg_lookup_untouched (m : ChangeMsg V) (d : ObjMap V) (k : JStr)
    (hk : msgKey m ≠ some k) (hc : m ≠ ChangeMsg.clear) :
    objLookup k (applyMsg m d) = objLookup k d := by
  cases m with
  | set k' v =>
    have hne : k ≠ k' := by
      intro he
      exact hk (by rw [he] at *; rfl)
    exact objLookup_objSet_other k' k v d hne
  | del k' =>
    have hne : k ≠ k' := by
      intro he
      exact hk (by rw [he] at *; rfl)
    exact objLookup_objDelete_other k' k d hne
  | clear => exact (hc rfl).elim

theorem applyList_noTouch (l : List (ChangeMsg V)) (d : ObjMap V) (k : JStr)
    (hk : ∀ m ∈ l, msgKey m ≠ some k) (hc : ∀ m ∈ l, m ≠ ChangeMsg.clear) :
    objLookup k (applyList l d) = objLookup k d := by
  induction l generalizing d with
  | nil => rfl
  | cons m rest ih =>
    have hstep := applyMsg_lookup_untouched m d k
      (hk m (List.mem_cons_self m rest)) (hc m (List.mem_cons_self m rest))
    calc objLookup k (applyList (m :: rest) d)
        = objLookup k (applyList rest (applyMsg m d)) := rfl
      _ = objLookup k (applyMsg m d) :=
          ih (applyMsg m d) (fun m' hm' => hk m' (List.mem_cons_of_mem m hm'))
            (fun m' hm' => hc m' (List.mem_cons_of_mem m hm'))
      _ = objLookup k d := hstep

theorem applyList_lookup_eq (l : List (ChangeMsg V)) (d : ObjMap V) (k : JStr)
    (hc : ∀ m ∈ l, m ≠ ChangeMsg.clear) (hd : distinctKeys l) :
    objLookup k (applyList l d) =
      match findOnKey k l with
      | some (ChangeMsg.set _ v) => some v
      | some (ChangeMsg.del _) => none
      | _ => objLookup k d := by
  induction l generalizing d with
  | nil => rfl
  | cons m rest ih =>
    obtain ⟨hrel, hd'⟩ := List.pairwise_cons.mp hd
    have hc' : ∀ m' ∈ rest, m' ≠ ChangeMsg.clear :=
      fun m' hm' => hc m' (List.mem_cons_of_mem m hm')
    by_cases hmk : msgKey m = some k
    · have hfind : findOnKey k (m :: rest) = some m :=
        List.find?_cons_of_pos rest (decide_eq_true hmk)
      have hrest : ∀ m' ∈ rest, msgKey m' ≠ some k := by
        intro m' hm' hk'
        rcases hrel m' hm' with hnone | hne
        · rw [hnone] at hmk
          exact Option.noConfusion hmk
        · exact hne (hmk.trans hk'.symm)
      have hrun : objLookup k (applyList (m :: rest) d)
          = objLookup k (applyMsg m d) :=
        applyList_noTouch rest (applyMsg m d) k hrest hc'
      rw [hfind, hrun]
      cases m with
      | set k' v =>
        have hkk : k' = k := Option.some.inj hmk
        subst hkk
        exact objLookup_objSet_self k' v d
      | del k' =>
        have hkk : k' = k := Option.some.inj hmk
        subst hkk
        exact objLookup_objDelete_self k' d
      | clear => exact (hc _ (List.mem_cons_self _ _) rfl).elim
    · have hfind : findOnKey k (m :: rest) = findOnKey k rest :=
        List.find?_cons_of_neg rest (by simpa using hmk)
      have hstep := applyMsg_lookup_untouched m d k hmk
        (hc m (List.mem_cons_self m rest))
      have hrun : objLookup k (applyList (m :: rest) d)
          = objLookup k (applyList rest (applyMsg m d)) := rfl
      rw [hrun, ih (applyMsg m d) hc' hd', hfind]
      cases hf : findOnKey k rest with
      | none => exact hstep
      | some m' =>
        cases m' with
        | set k' v => rfl
        | del k' => rfl
        | clear => exact hstep

theorem distinctKeys_symm :
    Symmetric (fun m1 m2 : ChangeMsg V =>
      msgKey m1 = none ∨ msgKey m1 ≠ msgKey m2) := by
  intro x y h
  rcases h with h1 | h2
  · by_cases hy : msgKey y = none
    · exact Or.inl hy
    · exact Or.inr (fun he => hy (he.trans h1))
  · exact Or.inr (fun he => h2 he.symm)

theorem findOnKey_perm (l1 l2 : List (ChangeMsg V)) (k : JStr)
    (hperm : l1.Perm l2) (hd : distinctKeys l1) :
    findOnKey k l1 = findOnKey k l2 := by
  unfold findOnKey
  cases hf1 : l1.find? (fun m => decide (msgKey m = some k)) with
  | none =>
    have hall : ∀ m ∈ l1, ¬(decide (msgKey m = some k) = true) :=
      List.find?_eq_none.mp hf1
    cases hf2 : l2.find? (fun m => decide (msgKey m = some k)) with
    | none => rfl
    | some m =>
      have hm := List.find?_some hf2
      have hmem := List.mem_of_find?_eq_some hf2
      exact absurd hm (hall m (hperm.mem_iff.mpr hmem))
  | some m =>
    have hm0 := List.find?_some hf1
    have hm : msgKey m = some k := of_decide_eq_true hm0
    have hmem : m ∈ l1 := List.mem_of_find?_eq_some hf1
    cases hf2 : l2.find? (fun m => decide (msgKey m = some k)) with
    | none =>
      have := List.find?_eq_none.mp hf2 m (hperm.mem_iff.mp hmem)
      exact absurd (decide_eq_true hm) this
    | some m' =>
      have hm'0 := List.find?_some hf2
      have hm' : msgKey m' = some k := of_decide_eq_true hm'0
      have hmem' : m' ∈ l1 := hperm.mem_iff.mpr (List.mem_of_find?_eq_some hf2)
      by_cases he : m = m'
      · rw [he]
      · rcases List.Pairwise.forall distinctKeys_symm hd hmem hmem' he with h1 | h2
        · rw [h1] at hm
          exact absurd hm (by simp)
        · exact absurd (hm.trans hm'.symm) h2

/-! String lemmas for the marker convention. -/

theorem jsStartsWith_append (p r : JStr) : jsStartsWith (p ++ r) p = true := by
  induction p with
  | nil => cases r <;> rfl
  | cons c cs ih => simp [jsStartsWith, ih]

theorem splitEq_no_delim (xs : JStr) (h : '=' ∉ xs) : splitEq xs = [xs] := by
  induction xs with
  | nil => rfl
  | cons c cs ih =>
    have hc : ¬(c = '=') := fun he => h (he ▸ List.mem_cons_self c cs)
    have hcs : '=' ∉ cs := fun hm => h (List.mem_cons_of_mem c hm)
    simp [splitEq, hc, ih hcs]

theorem splitEq_append (xs ys : JStr) (h : '=' ∉ xs) :
    splitEq (xs ++ '=' :: ys) = xs :: splitEq ys := by
  induction xs with
  | nil => simp [splitEq]
  | cons c cs ih =>
    have hc : ¬(c = '=') := fun he => h (he ▸ List.mem_cons_self c cs)
    have hcs : '=' ∉ cs := fun hm => h (List.mem_cons_of_mem c hm)
    simp only [List.cons_append, splitEq, hc, if_false, List.append_eq]
    rw [ih hcs]

theorem markerHead_no_delim (name : JStr) (h : '=' ∉ name) :
    '=' ∉ markerHead name := by
  intro hm
  rcases List.mem_append.mp hm with hm1 | hm2
  · rcases List.mem_append.mp hm1 with hl | hn
    · exact absurd hl (by decide)
    · exact h hn
  · exact absurd hm2 (by decide)

/-! Claim theorems. -/

/-- C1: the subscribe handler applies every Change Message deterministically —
a `set` message overwrites the entry for its key with its value (no merge)
and touches no other key, a `delete` message removes the entry for its key,
touches no other key, and is a no-op when the key is absent, and a `clear`
message resets the replica to empty. -/
theorem C1_subscribe_apply (V : Type) :
    (∀ (k : JStr) (v : V) (d : ObjMap V),
      objLookup k (applyMsg (ChangeMsg.set k v) d) = some v)
    ∧ (∀ (k k' : JStr) (v : V) (d : ObjMap V), k' ≠ k →
      objLookup k' (applyMsg (ChangeMsg.set k v) d) = objLookup k' d)
    ∧ (∀ (k : JStr) (d : ObjMap V),
      objLookup k (applyMsg (ChangeMsg.del k) d) = none)
    ∧ (∀ (k k' : JStr) (d : ObjMap V), k' ≠ k →
      objLookup k' (applyMsg (ChangeMsg.del k) d) = objLookup k' d)
    ∧ (∀ (k : JStr) (d : ObjMap V), objLookup k d = none →
      applyMsg (ChangeMsg.del k) d = d)
    ∧ (∀ d : ObjMap V, applyMsg (ChangeMsg.clear) d = []) := by
  refine ⟨?_, ?_, ?_, ?_, ?_, ?_⟩
  · exact fun k v d => objLookup_objSet_self k v d
  · exact fun k k' v d h => objLookup_objSet_other k k' v d h
  · exact fun k d => objLookup_objDelete_self k d
  · exact fun k k' d h => objLookup_objDelete_other k k' d h
  · exact fun k d h => objDelete_absent k d h
  · exact fun d => rfl

/-- C1 witness: the handler's behavior evaluated on a concrete replica. -/
theorem C1_subscribe_apply_witness :
    objLookup ['a'] (applyMsg (ChangeMsg.set ['a'] (1 : Nat)) [(['b'], 5)]) = some 1
    ∧ objLookup ['b'] (applyMsg (ChangeMsg.set ['a'] (1 : Nat)) [(['b'], 5)]) = some 5
    ∧ objLookup ['b'] (applyMsg (ChangeMsg.del ['b']) [(['b'], (5 : Nat))]) = none
    ∧ objLookup ['b'] (applyMsg (ChangeMsg.del ['a']) [(['b'], (5 : Nat))]) = some 5
    ∧ applyMsg (ChangeMsg.del ['a']) [(['b'], (5 : Nat))] = [(['b'], 5)]
    ∧ applyMsg (ChangeMsg.clear (V := Nat)) [(['b'], 5)] = [] := by
  obtain ⟨h1, h2, h3, h4, h5, h6⟩ := C1_subscribe_apply Nat
  exact ⟨h1 ['a'] 1 [(['b'], 5)],
    h2 ['a'] ['b'] 1 [(['b'], 5)] (by decide),
    h3 ['b'] [(['b'], 5)],
    h4 ['a'] ['b'] [(['b'], 5)] (by decide),
    h5 ['a'] [(['b'], 5)] (by decide),
    h6 [(['b'], 5)]⟩

/-- C2 counterexample: the claim's proviso does not exclude `clear` messages,
and `clear` does not commute with `set` — the multiset
`{set "a" 1, clear}` contains no two set/delete messages on a common key,
yet its two delivery orders leave different mappings. -/
theorem C2_convergence_cex :
    List.Perm [ChangeMsg.set ['a'] (1 : Nat), ChangeMsg.clear]
      [ChangeMsg.clear, ChangeMsg.set ['a'] (1 : Nat)]
    ∧ distinctKeys [ChangeMsg.set ['a'] (1 : Nat), ChangeMsg.clear]
    ∧ objLookup ['a']
        (applyList [ChangeMsg.set ['a'] (1 : Nat), ChangeMsg.clear] [])
      ≠ objLookup ['a']
        (applyList [ChangeMsg.clear, ChangeMsg.set ['a'] (1 : Nat)] []) := by
  refine ⟨by decide, by decide, by decide⟩

/-- C2 (amended): two replicas that both start empty and receive the same
finite multiset of Change Messages, each in some delivery order, end with
identical mappings, provided no two set/delete messages act on the same key
AND the multiset contains no `clear` message. -/
theorem C2_convergence (V : Type) (l1 l2 : List (ChangeMsg V))
    (hperm : l1.Perm l2)
    (hclear : ChangeMsg.clear ∉ l1)
    (hkeys : distinctKeys l1) (k : JStr) :
    objLookup k (applyList l1 []) = objLookup k (applyList l2 []) := by
  have hc1 : ∀ m ∈ l1, m ≠ ChangeMsg.clear :=
    fun m hm he => hclear (he ▸ hm)
  have hc2 : ∀ m ∈ l2, m ≠ ChangeMsg.clear :=
    fun m hm he => hclear (he ▸ hperm.mem_iff.mpr hm)
  have hkeys2 : distinctKeys l2 :=
    (List.Perm.pairwise_iff (fun {x y} h => distinctKeys_symm h) hperm).mp hkeys
  rw [applyList_lookup_eq l1 [] k hc1 hkeys,
    applyList_lookup_eq l2 [] k hc2 hkeys2,
    findOnKey_perm l1 l2 k hperm hkeys]

/-- C2 witness: a clear-free multiset of messages on distinct keys delivered
in two orders. -/
theorem C2_convergence_witness :
    List.Perm [ChangeMsg.set ['a'] (1 : Nat), ChangeMsg.del ['b']]
      [ChangeMsg.del ['b'], ChangeMsg.set ['a'] (1 : Nat)]
    ∧ ChangeMsg.clear ∉ [ChangeMsg.set ['a'] (1 : Nat), ChangeMsg.del ['b']]
    ∧ distinctKeys [ChangeMsg.set ['a'] (1 : Nat), ChangeMsg.del ['b']]
    ∧ objLookup ['a']
        (applyList [ChangeMsg.set ['a'] (1 : Nat), ChangeMsg.del ['b']] [])
      = objLookup ['a']
        (applyList [ChangeMsg.del ['b'], ChangeMsg.set ['a'] (1 : Nat)] []) := by
  have hp : List.Perm [ChangeMsg.set ['a'] (1 : Nat), ChangeMsg.del ['b']]
      [ChangeMsg.del ['b'], ChangeMsg.set ['a'] (1 : Nat)] := by decide
  have hc : ChangeMsg.clear ∉ [ChangeMsg.set ['a'] (1 : Nat), ChangeMsg.del ['b']] := by
    decide
  have hk : distinctKeys [ChangeMsg.set ['a'] (1 : Nat), ChangeMsg.del ['b']] := by
    decide
  exact ⟨hp, hc, hk, C2_convergence Nat _ _ hp hc hk ['a']⟩

/-- C3 counterexample: the handler parses the expired key with
`data.split("=")[1]`, so for the original key `a=b` (marker
`rmap-n-ex=a=b`) it evicts `a` instead of `a=b`: the entry for the
original key survives and an unrelated entry is removed. -/
theorem C3_expiration_cex :
    objLookup ['a', '=', 'b']
      (expiredHandler ['n'] (markerKey ['n'] ['a', '=', 'b'])
        [(['a', '=', 'b'], (1 : Nat)), (['a'], 2)]).1 = some 1
    ∧ objLookup ['a']
      (expiredHandler ['n'] (markerKey ['n'] ['a', '=', 'b'])
        [(['a', '=', 'b'], (1 : Nat)), (['a'], 2)]).1 = none := by
  decide

/-- C3 (amended): for every expiration event whose expired store key is the
marker `rmap-<name>-ex=<key>` of this collection, PROVIDED neither the
collection name nor the key contains the delimiter `=`, the handler removes
exactly the original key from the local replica, changes nothing else, and
publishes no Change Message. -/
theorem C3_expiration_evict (V : Type) (name key : JStr) (d : ObjMap V)
    (hn : '=' ∉ name) (hk : '=' ∉ key) :
    (expiredHandler name (markerKey name key) d).2 = ([] : List (ChangeMsg V))
    ∧ objLookup key (expiredHandler name (markerKey name key) d).1 = none
    ∧ (∀ k', k' ≠ key →
        objLookup k' (expiredHandler name (markerKey name key) d).1
          = objLookup k' d) := by
  have hstart : jsStartsWith (markerKey name key) (markerHead name) = true := by
    unfold markerKey
    exact jsStartsWith_append (markerHead name) ('=' :: key)
  have hsplit : splitEq (markerKey name key) = [markerHead name, key] := by
    unfold markerKey
    rw [splitEq_append (markerHead name) key (markerHead_no_delim name hn),
      splitEq_no_delim key hk]
  have hresult : expiredHandler name (markerKey name key) d = (objDelete key d, []) := by
    unfold expiredHandler
    rw [hstart, hsplit]
    simp
  rw [hresult]
  exact ⟨rfl, objLookup_objDelete_self key d,
    fun k' hk' => objLookup_objDelete_other key k' d hk'⟩

/-- C3 witness: eviction of the concrete key `k` of collection `n`, with an
unrelated entry `z` untouched. -/
theorem C3_expiration_evict_witness :
    ('=' ∉ (['n'] : JStr))
    ∧ ('=' ∉ (['k'] : JStr))
    ∧ (expiredHandler ['n'] (markerKey ['n'] ['k'])
        [(['k'], (7 : Nat)), (['z'], 9)]).2 = []
    ∧ objLookup ['k'] (expiredHandler ['n'] (markerKey ['n'] ['k'])
        [(['k'], (7 : Nat)), (['z'], 9)]).1 = none
    ∧ objLookup ['z'] (expiredHandler ['n'] (markerKey ['n'] ['k'])
        [(['k'], (7 : Nat)), (['z'], 9)]).1 = some 9 := by
  have hn : '=' ∉ (['n'] : JStr) := by decide
  have hk : '=' ∉ (['k'] : JStr) := by decide
  obtain ⟨h1, h2, h3⟩ :=
    C3_expiration_evict Nat ['n'] ['k'] [(['k'], 7), (['z'], 9)] hn hk
  exact ⟨hn, hk, h1, h2, (h3 ['z'] (by decide)).trans (by decide)⟩

/-- C4 counterexample: `expire` is tested with JS truthiness (`if (expire)`),
so the call `set(key, value, 0)` — expiration given as `0` seconds — writes
no Expiration Marker, while the claim requires a marker with TTL `0`. -/
theorem C4_marker_cex :
    (RedisMap.set ['n'] ([] : ObjMap Nat) ['k'] 5 (some 0)).marker = none
    ∧ (RedisMap.set ['n'] ([] : ObjMap Nat) ['k'] 5 (some 0)).marker
      ≠ some (markerKey ['n'] ['k'], 0) := by
  decide

/-- C4 (amended): for every `set(key, value, expireSeconds)` call in which
`expireSeconds` is given and nonzero, a marker is written under exactly
`rmap-<name>-ex=<key>` with TTL `expireSeconds`; when `expireSeconds` is not
given, no marker is written. -/
theorem C4_marker (V : Type) (name : JStr) (d : ObjMap V) (key : JStr) (v : V)
    (n : Nat) (hn : n ≠ 0) :
    (RedisMap.set name d key v (some n)).marker = some (markerKey name key, n)
    ∧ (RedisMap.set name d key v none).marker = none := by
  constructor
  · simp [RedisMap.set, hn]
  · rfl

/-- C4 witness: a concrete `set` with a 10-second TTL and one without. -/
theorem C4_marker_witness :
    (10 : Nat) ≠ 0
    ∧ (RedisMap.set ['n'] ([] : ObjMap Nat) ['k'] 5 (some 10)).marker
      = some (markerKey ['n'] ['k'], 10)
    ∧ (RedisMap.set ['n'] ([] : ObjMap Nat) ['k'] 5 none).marker = none := by
  have hn : (10 : Nat) ≠ 0 := by decide
  obtain ⟨h1, h2⟩ := C4_marker Nat ['n'] [] ['k'] 5 10 hn
  exact ⟨hn, h1, h2⟩

/-- C5 counterexample: `get` returns `this.data[key] || null`, so a stored
falsy value — here the number `0` — reads back as `null`, not as the value
that was set. -/
theorem C5_get_roundtrip_cex :
    RedisMap.get (RedisMap.set ['n'] [] ['a'] (JSVal.vNum 0) none).data ['a']
      = JSVal.vNull
    ∧ JSVal.vNull ≠ JSVal.vNum 0 := by
  exact ⟨rfl, fun h => JSVal.noConfusion h⟩

/-- C5 (amended): after `set(key, value)` has applied its local mutation, a
local `get(key)` returns that value PROVIDED the value is truthy; and for
every key not present in the replica, `get(key)` returns `null` (the absent
signal). `get` is a pure function of the local replica — no store access. -/
theorem C5_get_roundtrip (name : JStr) (d : ObjMap JSVal) (k : JStr)
    (v : JSVal) (e : Option Nat) :
    (truthy v = true →
      RedisMap.get (RedisMap.set name d k v e).data k = v)
    ∧ (objLookup k d = none → RedisMap.get d k = JSVal.vNull) := by
  constructor
  · intro hv
    have h1 : objLookup k (RedisMap.set name d k v e).data = some v :=
      objLookup_objSet_self k v d
    unfold RedisMap.get
    rw [h1]
    simp [hv]
  · intro h0
    unfold RedisMap.get
    rw [h0]

/-- C5 witness: round trip of the truthy value `3` and a lookup on an empty
replica. -/
theorem C5_get_roundtrip_witness :
    truthy (JSVal.vNum 3) = true
    ∧ RedisMap.get (RedisMap.set ['n'] [] ['a'] (JSVal.vNum 3) none).data ['a']
      = JSVal.vNum 3
    ∧ objLookup ['a'] ([] : ObjMap JSVal) = none
    ∧ RedisMap.get ([] : ObjMap JSVal) ['a'] = JSVal.vNull := by
  obtain ⟨h1, h2⟩ := C5_get_roundtrip ['n'] [] ['a'] (JSVal.vNum 3) none
  exact ⟨rfl, h1 rfl, rfl, h2 rfl⟩

/-- C6: `clear()` deletes the persisted snapshot blob with `DEL name` (it
writes no empty object), broadcasts exactly one `clear` Change Message, and
once the echoed broadcast is applied by the subscribe handler the local
replica's `entries()` is empty. -/
theorem C6_clear_resets (V : Type) (name : JStr) (d : ObjMap V) :
    (RedisMap.clear name d).storeDel = [name]
    ∧ (RedisMap.clear name d).snapshotWrite = none
    ∧ (RedisMap.clear name d).published = [ChangeMsg.clear]
    ∧ objEntries (applyMsg ChangeMsg.clear (RedisMap.clear name d).data) = [] :=
  ⟨rfl, rfl, rfl, rfl⟩

/-- C7: when the pipeline exec of `set` or `delete` fails, the failure
propagates to the caller as an error, and the local replica retains the
already-applied optimistic mutation — the new entry for `set`, the removal
for `delete`; no rollback. -/
theorem C7_write_failure (V : Type) (name : JStr) (d : ObjMap V) (key : JStr)
    (v : V) (e : Option Nat) :
    (RedisMap.setCall name d key v e false).2 = Except.error ()
    ∧ (RedisMap.setCall name d key v e false).1 = objSet key v d
    ∧ objLookup key (RedisMap.setCall name d key v e false).1 = some v
    ∧ (RedisMap.deleteCall name d key false).2 = Except.error ()
    ∧ (RedisMap.deleteCall name d key false).1 = objDelete key d
    ∧ objLookup key (RedisMap.deleteCall name d key false).1 = none :=
  ⟨rfl, rfl, objLookup_objSet_self key v d, rfl, rfl,
    objLookup_objDelete_self key d⟩

/-- C8: `sync()` replaces the whole local replica with the deserialized
persisted snapshot when the store holds one, and is a raise-free no-op both
when the read fails (the `.catch` swallows it) and when the store holds no
snapshot. -/
theorem C8_sync (V : Type) (d s : ObjMap V) :
    RedisMap.sync (Except.error ()) d = d
    ∧ RedisMap.sync (Except.ok none) d = d
    ∧ RedisMap.sync (Except.ok (some s)) d = s :=
  ⟨rfl, rfl, rfl⟩

/-- C9: applying the same Change Message twice in a row leaves the replica
exactly as applying it once — all three actions are idempotent. -/
theorem C9_idempotent (V : Type) (m : ChangeMsg V) (d : ObjMap V) :
    applyMsg m (applyMsg m d) = applyMsg m d := by
  cases m with
  | set k v => exact objSet_idem k v d
  | del k => exact objDelete_idem k d
  | clear => rfl

/-- C10: the constructor's guard is `!(redis.isOpen || pubsub.isOpen)`, so it
throws only when BOTH connections are closed; with the store connection open
and the pubsub connection closed (or conversely) — states where the claim
and the spec require an immediate raise — no error is raised. -/
theorem C10_constructor_check :
    RedisMap.constructorThrows true false = false
    ∧ RedisMap.constructorThrows false true = false
    ∧ RedisMap.constructorThrows false false = true
    ∧ RedisMap.constructorThrows true true = false := by
  decide
